import Mathlib

/-!
Verification of the `do-with-retry` retry engine and its backoff strategy
family (src/index.ts) against its natural-language specification.

The TypeScript source is shallowly embedded as follows.

* JS numbers (timeouts, delays) are modelled as `ℚ`; `Number.MAX_SAFE_INTEGER`
  is the rational `2 ^ 53 - 1`.
* A thrown JS error is modelled as a returned value: the user operation is a
  function `Nat → OpResult α ε` giving, for each attempt number, either a
  normal return (`value`), a thrown internal retry marker (`thrown (retryErr e)`,
  corresponding to `err instanceof RetryError`), or any other thrown error
  (`thrown (other e)`).  `ε` is the type of opaque `unknown` error values.
* The engine `doWithRetry` is the loop of src/index.ts lines 71-111.  Besides
  its outcome it returns the ordered list of observable events of the run:
  operation invocations, observer calls, backoff-function calls and waits.
  `await sleep(timeout)` is modelled by the `Event.wait` event (real time is
  out of scope).
* The `onFail` / `onSuccess` observers are fire-and-forget callbacks whose
  return values the source discards; only their presence is observable, so
  options store them as `Option Unit` and their calls are recorded as events.
* The mutable module-global `DFLT_OPTIONS` is modelled by explicit state
  passing: `doWithRetry` and `overrideDefaultOptions` take the current
  defaults as an argument; `DFLT_OPTIONS` is the initial value of that state.
* The stateful fibonacci closure is modelled by an explicit state type
  `FibState` and a step function returning (output, next state).
* `Math.random()` inside the closure produced by `randomBackoff` is modelled
  as an explicit sample argument; strategy constructors that validate their
  arguments (`randomBackoff`, `upwardDecayBackoff`) return `Except` to model
  the synchronously thrown `RangeError`.
-/

namespace DoWithRetryModel

/-- JS `Number.MAX_SAFE_INTEGER`, the default `maxTimeout` of several
backoff strategies. -/
def maxSafeInteger : ℚ := 2 ^ 53 - 1

/-- Type `BackoffFunction` (src/index.ts line 6): `(curTimeout, attempt) → next`. -/
abbrev BackoffFunction := ℚ → Nat → ℚ

/-- Strategy `constantBackoff` (src/index.ts lines 127-131). -/
def constantBackoff (timeout : Option ℚ := none) : BackoffFunction :=
  fun curTimeout _ => timeout.getD curTimeout

/-- Strategy `linearBackoff` (src/index.ts lines 138-142). -/
def linearBackoff (increment : ℚ) (maxTimeout : ℚ := maxSafeInteger) : BackoffFunction :=
  fun curTimeout attempt =>
    if attempt = 1 then curTimeout else min (curTimeout + increment) maxTimeout

/-- Strategy `exponentialBackoff` (src/index.ts lines 149-153). -/
def exponentialBackoff (exponent : ℚ := 2) (maxTimeout : ℚ := maxSafeInteger) : BackoffFunction :=
  fun curTimeout attempt =>
    if attempt = 1 then curTimeout else min (curTimeout * exponent) maxTimeout

/-- Strategy `upwardDecayBackoff` (src/index.ts lines 160-168).  The `RangeError`
thrown at construction time is modelled by `Except.error` carrying the
error message; `Math.round` is `round : ℚ → ℤ`. -/
def upwardDecayBackoff (maxTimeout : ℚ) (rate : ℚ := 2) : Except String BackoffFunction :=
  if rate ≤ 1 then .error "backoffRate must be greater than 1"
  else .ok fun _ attempt => ((round (maxTimeout * (1 - 1 / rate ^ attempt)) : ℤ) : ℚ)

/-- The hidden `(fibPrev, fibCurr)` state of the `fibonacciBackoff` closure
(src/index.ts lines 176-177). -/
structure FibState where
  fibPrev : ℚ
  fibCurr : ℚ
deriving DecidableEq

/-- Initial closure state of `fibonacciBackoff`: `fibPrev = 0`, `fibCurr = 1`. -/
def fibonacciBackoffInit : FibState := ⟨0, 1⟩

/-- One call of the closure returned by `fibonacciBackoff`
(src/index.ts lines 178-183): advances the sequence and returns
`min (factor * fibCurr) maxTimeout` together with the new state. -/
def fibonacciBackoffCall (factor : ℚ := 1000) (maxTimeout : ℚ := maxSafeInteger)
    (s : FibState) : ℚ × FibState :=
  let fibCurr := s.fibPrev + s.fibCurr
  (min (factor * fibCurr) maxTimeout, ⟨s.fibCurr, fibCurr⟩)

/-- Strategy `randomBackoff` (src/index.ts lines 191-196).  The construction-time
validation is `Except.error`; the returned closure takes the `Math.random()`
sample `rnd ∈ [0,1)` as an explicit argument (it ignores both `BackoffFunction`
arguments in the source). -/
def randomBackoff (minTimeout maxTimeout : ℚ) : Except String (ℚ → ℚ) :=
  if maxTimeout ≤ minTimeout then .error "minTimeout must be less than maxTimeout"
  else .ok fun rnd => minTimeout + ((⌊rnd * (maxTimeout - minTimeout)⌋ : ℤ) : ℚ)

/-- Type `DoWithRetryOptions` (src/index.ts lines 8-19).  All fields are optional;
the observers are stored as presence markers (their results are discarded by
the engine, see the module docstring). -/
structure Options where
  maxAttempts : Option Nat := none
  initTimeout : Option ℚ := none
  getNextTimeout : Option BackoffFunction := none
  onFail : Option Unit := none
  onSuccess : Option Unit := none

/-- Initial value of the module-global `DFLT_OPTIONS` (src/index.ts
lines 21-25): `maxAttempts = 10`, `initTimeout = 100`,
`getNextTimeout = exponentialBackoff()`. -/
def DFLT_OPTIONS : Options :=
  ⟨some 10, some 100, some (exponentialBackoff 2 maxSafeInteger), none, none⟩

/-- Function `overrideDefaultOptions` (src/index.ts lines 31-33):
`Object.assign(DFLT_OPTIONS, options)` — every field present in `options`
overwrites the stored default, absent fields are untouched; the merged
record is both the new defaults state and the return value. -/
def overrideDefaultOptions (dflt options : Options) : Options :=
  ⟨options.maxAttempts.orElse fun _ => dflt.maxAttempts,
   options.initTimeout.orElse fun _ => dflt.initTimeout,
   options.getNextTimeout.orElse fun _ => dflt.getNextTimeout,
   options.onFail.orElse fun _ => dflt.onFail,
   options.onSuccess.orElse fun _ => dflt.onSuccess⟩

/-- Class `AttemptCountExceededError` (src/index.ts lines 35-40): carries the
message set by the constructor, the class name, and the wrapped cause. -/
structure AttemptCountExceededError (ε : Type) where
  message : String
  name : String
  cause : Option ε
deriving DecidableEq

/-- Construction of `AttemptCountExceededError` (src/index.ts lines 36-39). -/
def mkAttemptCountExceededError {ε : Type} (cause : Option ε) : AttemptCountExceededError ε :=
  ⟨"Maximum attempt count exceeded", "AttemptCountExceededError", cause⟩

/-- The internal `RetryError` marker class (src/index.ts lines 43-48). -/
structure RetryError (ε : Type) where
  message : String
  name : String
  cause : Option ε
deriving DecidableEq

/-- Construction of `RetryError` (src/index.ts lines 44-47). -/
def mkRetryError {ε : Type} (cause : Option ε) : RetryError ε :=
  ⟨"ATTEMPTFAILED", "RetryError", cause⟩

/-- The `retry` function handed to the user operation (src/index.ts
lines 60-62): it unconditionally throws `RetryError(cause)`.  Its TS return
type is `void`; the thrown marker is the `Except.error` branch, so a normal
(`ok`) return never occurs. -/
def retry {ε : Type} (cause : Option ε) : Except (RetryError ε) Unit :=
  .error (mkRetryError cause)

/-- What a thrown value looks like to the engine's `catch` block:
either the internal retry marker (`err instanceof RetryError`) or any
other error. -/
inductive ThrownError (ε : Type) where
  | retryErr : RetryError ε → ThrownError ε
  | other : ε → ThrownError ε
deriving DecidableEq

/-- Result of one invocation of the user operation: a normal return or a
thrown error. -/
inductive OpResult (α ε : Type) where
  | value : α → OpResult α ε
  | thrown : ThrownError ε → OpResult α ε
deriving DecidableEq

/-- Observable events of one `doWithRetry` run, in order:
`invoke n` — the user operation is invoked with attempt number `n`;
`failCall e n` — the `onFail` observer is called with `(e, n)`;
`successCall v n` — the `onSuccess` observer is called with `(v, n)`;
`backoffCall cur n next` — `getNextTimeout(cur, n)` is called, returning `next`;
`wait t` — `await sleep(t)`. -/
inductive Event (α ε : Type) where
  | invoke : Nat → Event α ε
  | failCall : Option ε → Nat → Event α ε
  | successCall : α → Nat → Event α ε
  | backoffCall : ℚ → Nat → ℚ → Event α ε
  | wait : ℚ → Event α ε
deriving DecidableEq

/-- Terminal result of a `doWithRetry` run: the returned value, a rethrown
unrelated error, or a thrown `AttemptCountExceededError`. -/
inductive RunOutcome (α ε : Type) where
  | success : α → RunOutcome α ε
  | raised : ε → RunOutcome α ε
  | exceeded : AttemptCountExceededError ε → RunOutcome α ε
deriving DecidableEq

/-- A full run: terminal outcome plus the ordered event trace. -/
structure RunResult (α ε : Type) where
  outcome : RunOutcome α ε
  events : List (Event α ε)
deriving DecidableEq

/-- Resolution `let timeout = options?.initTimeout ?? DFLT_OPTIONS.initTimeout!`
(src/index.ts line 72).  The TS non-null assertion on the stored default is
modelled by `getD 0`; `DFLT_OPTIONS` defines the field, and
`overrideDefaultOptions` never removes it, so the fallback is inert. -/
def resolveInitTimeout (options dflt : Options) : ℚ :=
  options.initTimeout.getD (dflt.initTimeout.getD 0)

/-- Resolution `const maxAttempts = options?.maxAttempts ?? DFLT_OPTIONS.maxAttempts!`
(src/index.ts line 73); the non-null assertion is modelled as in
`resolveInitTimeout`. -/
def resolveMaxAttempts (options dflt : Options) : Nat :=
  options.maxAttempts.getD (dflt.maxAttempts.getD 0)

/-- Resolution `const getNextTimeout = options?.getNextTimeout ?? DFLT_OPTIONS.getNextTimeout!`
(src/index.ts line 74); the non-null assertion is modelled as in
`resolveInitTimeout`. -/
def resolveGetNextTimeout (options dflt : Options) : BackoffFunction :=
  options.getNextTimeout.getD (dflt.getNextTimeout.getD fun curTimeout _ => curTimeout)

/-- The `do … while (true)` loop of `doWithRetry` (src/index.ts lines 76-110),
run from loop state `(attempt, timeout)`.  Each iteration invokes the
operation; on a normal return it calls `onSuccess` (if present) and returns;
on a thrown `RetryError` it calls `onFail` (if present) with the marker's
cause, then either — when `attempt + 1 < maxAttempts` — increments the
attempt, computes the next timeout, waits and loops, or — otherwise — throws
`AttemptCountExceededError` wrapping the marker's cause; on any other thrown
error it calls `onFail` (if present) with that error and rethrows it. -/
def doRetryLoop {α ε : Type} (op : Nat → OpResult α ε) (getNextTimeout : BackoffFunction)
    (maxAttempts : Nat) (hasOnFail hasOnSuccess : Bool) (attempt : Nat) (timeout : ℚ) :
    RunResult α ε :=
  match op attempt with
  | .value result =>
      ⟨.success result,
       [.invoke attempt] ++ if hasOnSuccess then [.successCall result attempt] else []⟩
  | .thrown (.retryErr err) =>
      let failEvents : List (Event α ε) :=
        if hasOnFail then [.failCall err.cause attempt] else []
      if h : attempt + 1 < maxAttempts then
        let nextTimeout := getNextTimeout timeout (attempt + 1)
        let rest := doRetryLoop op getNextTimeout maxAttempts hasOnFail hasOnSuccess
          (attempt + 1) nextTimeout
        ⟨rest.outcome,
         [.invoke attempt] ++ failEvents
           ++ [.backoffCall timeout (attempt + 1) nextTimeout, .wait nextTimeout]
           ++ rest.events⟩
      else
        ⟨.exceeded (mkAttemptCountExceededError err.cause), [.invoke attempt] ++ failEvents⟩
  | .thrown (.other err) =>
      ⟨.raised err,
       [.invoke attempt] ++ if hasOnFail then [.failCall (some err) attempt] else []⟩
termination_by maxAttempts - attempt
decreasing_by omega

/-- Function `doWithRetry` (src/index.ts lines 71-111): resolves the configuration
against the current process-wide defaults `dflt` and runs the loop from
`attempt = 0` with the resolved initial timeout.  Note the source reads the
observers from `options` alone (lines 80, 87, 103), never from the defaults. -/
def doWithRetry {α ε : Type} (userFn : Nat → OpResult α ε) (options dflt : Options) :
    RunResult α ε :=
  doRetryLoop userFn (resolveGetNextTimeout options dflt) (resolveMaxAttempts options dflt)
    options.onFail.isSome options.onSuccess.isSome 0 (resolveInitTimeout options dflt)

/-- Attempt numbers of the operation invocations in a trace, in order. -/
def invokes {α ε : Type} (events : List (Event α ε)) : List Nat :=
  events.filterMap fun e => match e with | .invoke n => some n | _ => none

/-- Durations of the waits in a trace, in order. -/
def waits {α ε : Type} (events : List (Event α ε)) : List ℚ :=
  events.filterMap fun e => match e with | .wait t => some t | _ => none

/-- Arguments and results of the backoff-function calls in a trace, in order. -/
def backoffCalls {α ε : Type} (events : List (Event α ε)) : List (ℚ × Nat × ℚ) :=
  events.filterMap fun e => match e with | .backoffCall c n t => some (c, n, t) | _ => none

/-- Arguments of the `onSuccess` observer calls in a trace, in order. -/
def successCalls {α ε : Type} (events : List (Event α ε)) : List (α × Nat) :=
  events.filterMap fun e => match e with | .successCall v n => some (v, n) | _ => none

/-- The current-delay values the loop passes through when the backoff function
is iterated starting from timeout `t` at attempt counter `a`:
`delayIterFrom g t a 0 = t` and each step applies `g` at the next
(incremented) attempt number. -/
def delayIterFrom (g : BackoffFunction) (t : ℚ) (a : Nat) : Nat → ℚ
  | 0 => t
  | n + 1 => delayIterFrom g (g t (a + 1)) (a + 1) n

/-- The events generated by one granted retry at attempt `a` with current
delay `d`: invocation, optional `onFail` call, one backoff call returning
`next`, and the wait for `next`. -/
def grantedBlock {α ε : Type} (hasOnFail : Bool) (cause : Option ε) (a : Nat) (d next : ℚ) :
    List (Event α ε) :=
  [.invoke a] ++ (if hasOnFail then [.failCall cause a] else [])
    ++ [.backoffCall d (a + 1) next, .wait next]

/-- The event trace of `n` consecutive granted retries starting at attempt `a`
with current delay `t`, where attempt `k` signals failure with cause `c k`. -/
def retryRunEvents {α ε : Type} (hasOnFail : Bool) (c : Nat → Option ε) (g : BackoffFunction)
    (t : ℚ) (a : Nat) : Nat → List (Event α ε)
  | 0 => []
  | n + 1 =>
      grantedBlock hasOnFail (c a) a t (g t (a + 1))
        ++ retryRunEvents hasOnFail c g (g t (a + 1)) (a + 1) n

/-- The successive delay values produced by feeding each output of
`linearBackoff increment maxTimeout` back as the next current delay, with
attempt numbers `1, 2, 3, …`; index `0` is the initial delay. -/
def linearDelaySeq (increment maxTimeout t0 : ℚ) : Nat → ℚ
  | 0 => t0
  | n + 1 => linearBackoff increment maxTimeout (linearDelaySeq increment maxTimeout t0 n) (n + 1)

/-- The successive delay values produced by feeding each output of
`exponentialBackoff exponent maxTimeout` back as the next current delay, with
attempt numbers `1, 2, 3, …`; index `0` is the initial delay. -/
def exponentialDelaySeq (exponent maxTimeout t0 : ℚ) : Nat → ℚ
  | 0 => t0
  | n + 1 =>
      exponentialBackoff exponent maxTimeout (exponentialDelaySeq exponent maxTimeout t0 n) (n + 1)

/-- The closure state of one `fibonacciBackoff` instance after `n` calls. -/
def fibStateAfter (factor maxTimeout : ℚ) (n : Nat) : FibState :=
  (fun s => (fibonacciBackoffCall factor maxTimeout s).2)^[n] fibonacciBackoffInit

/-- The delay returned by call number `i + 1` of one `fibonacciBackoff`
instance (the closure ignores its arguments, so the sequence of returned
delays does not depend on what is fed back). -/
def fibonacciDelay (factor maxTimeout : ℚ) (i : Nat) : ℚ :=
  (fibonacciBackoffCall factor maxTimeout (fibStateAfter factor maxTimeout i)).1

end DoWithRetryModel

namespace DoWithRetryModel

@[simp] theorem mkRetryError_cause {ε : Type} (c : Option ε) : (mkRetryError c).cause = c := rfl

@[simp] theorem mkAttemptCountExceededError_message {ε : Type} (c : Option ε) :
    (mkAttemptCountExceededError c).message = "Maximum attempt count exceeded" := rfl

@[simp] theorem invokes_append {α ε : Type} (l₁ l₂ : List (Event α ε)) :
    invokes (l₁ ++ l₂) = invokes l₁ ++ invokes l₂ := List.filterMap_append l₁ l₂ _

@[simp] theorem waits_append {α ε : Type} (l₁ l₂ : List (Event α ε)) :
    waits (l₁ ++ l₂) = waits l₁ ++ waits l₂ := List.filterMap_append l₁ l₂ _

@[simp] theorem backoffCalls_append {α ε : Type} (l₁ l₂ : List (Event α ε)) :
    backoffCalls (l₁ ++ l₂) = backoffCalls l₁ ++ backoffCalls l₂ := List.filterMap_append l₁ l₂ _

@[simp] theorem successCalls_append {α ε : Type} (l₁ l₂ : List (Event α ε)) :
    successCalls (l₁ ++ l₂) = successCalls l₁ ++ successCalls l₂ := List.filterMap_append l₁ l₂ _

theorem range'_succ_right (a n : Nat) : List.range' a (n + 1) = List.range' a n ++ [a + n] := by
  induction n generalizing a with
  | zero => rfl
  | succ n ih =>
      rw [List.range'_succ a (n + 1) 1, ih (a + 1), List.range'_succ a n 1]
      simp [List.cons_append, Nat.add_right_comm, Nat.add_assoc]
end DoWithRetryModel

namespace DoWithRetryModel

theorem doRetryLoop_value {α ε : Type} {op : Nat → OpResult α ε} {g : BackoffFunction}
    {M : Nat} {hf hs : Bool} {a : Nat} {t : ℚ} {v : α} (hv : op a = .value v) :
    doRetryLoop op g M hf hs a t =
      ⟨.success v, [.invoke a] ++ if hs then [.successCall v a] else []⟩ := by
  rw [doRetryLoop, hv]

theorem doRetryLoop_retry_granted {α ε : Type} {op : Nat → OpResult α ε} {g : BackoffFunction}
    {M : Nat} {hf hs : Bool} {a : Nat} {t : ℚ} {e : RetryError ε}
    (he : op a = .thrown (.retryErr e)) (h : a + 1 < M) :
    doRetryLoop op g M hf hs a t =
      ⟨(doRetryLoop op g M hf hs (a + 1) (g t (a + 1))).outcome,
       [.invoke a] ++ (if hf then [.failCall e.cause a] else [])
         ++ [.backoffCall t (a + 1) (g t (a + 1)), .wait (g t (a + 1))]
         ++ (doRetryLoop op g M hf hs (a + 1) (g t (a + 1))).events⟩ := by
  rw [doRetryLoop, he]
  simp only [dif_pos h]

theorem doRetryLoop_retry_exhausted {α ε : Type} {op : Nat → OpResult α ε} {g : BackoffFunction}
    {M : Nat} {hf hs : Bool} {a : Nat} {t : ℚ} {e : RetryError ε}
    (he : op a = .thrown (.retryErr e)) (h : ¬ a + 1 < M) :
    doRetryLoop op g M hf hs a t =
      ⟨.exceeded (mkAttemptCountExceededError e.cause),
       [.invoke a] ++ if hf then [.failCall e.cause a] else []⟩ := by
  rw [doRetryLoop, he]
  simp only [dif_neg h]

theorem doRetryLoop_other {α ε : Type} {op : Nat → OpResult α ε} {g : BackoffFunction}
    {M : Nat} {hf hs : Bool} {a : Nat} {t : ℚ} {e : ε}
    (he : op a = .thrown (.other e)) :
    doRetryLoop op g M hf hs a t =
      ⟨.raised e, [.invoke a] ++ if hf then [.failCall (some e) a] else []⟩ := by
  rw [doRetryLoop, he]

end DoWithRetryModel

namespace DoWithRetryModel

theorem invokes_grantedBlock {α ε : Type} (hf : Bool) (c : Option ε) (a : Nat) (d d' : ℚ) :
    invokes (α := α) (grantedBlock hf c a d d') = [a] := by
  cases hf <;> simp [grantedBlock, invokes]

theorem waits_grantedBlock {α ε : Type} (hf : Bool) (c : Option ε) (a : Nat) (d d' : ℚ) :
    waits (α := α) (grantedBlock hf c a d d') = [d'] := by
  cases hf <;> simp [grantedBlock, waits]

theorem backoffCalls_grantedBlock {α ε : Type} (hf : Bool) (c : Option ε) (a : Nat) (d d' : ℚ) :
    backoffCalls (α := α) (grantedBlock hf c a d d') = [(d, a + 1, d')] := by
  cases hf <;> simp [grantedBlock, backoffCalls]

theorem successCalls_grantedBlock {α ε : Type} (hf : Bool) (c : Option ε) (a : Nat) (d d' : ℚ) :
    successCalls (α := α) (grantedBlock hf c a d d') = [] := by
  cases hf <;> simp [grantedBlock, successCalls]

theorem invokes_retryRunEvents {α ε : Type} (hf : Bool) (c : Nat → Option ε) (g : BackoffFunction) :
    ∀ (n : Nat) (a : Nat) (t : ℚ),
      invokes (α := α) (retryRunEvents hf c g t a n) = List.range' a n := by
  intro n
  induction n with
  | zero => intro a t; simp [retryRunEvents, invokes]
  | succ n ih =>
      intro a t
      rw [retryRunEvents, List.range'_succ a n 1]
      simp [invokes_grantedBlock, ih]

theorem waits_retryRunEvents_length {α ε : Type} (hf : Bool) (c : Nat → Option ε)
    (g : BackoffFunction) :
    ∀ (n : Nat) (a : Nat) (t : ℚ), (waits (α := α) (retryRunEvents hf c g t a n)).length = n := by
  intro n
  induction n with
  | zero => intro a t; simp [retryRunEvents, waits]
  | succ n ih =>
      intro a t
      rw [retryRunEvents]
      simp [waits_grantedBlock, ih]

theorem successCalls_retryRunEvents {α ε : Type} (hf : Bool) (c : Nat → Option ε)
    (g : BackoffFunction) :
    ∀ (n : Nat) (a : Nat) (t : ℚ), successCalls (α := α) (retryRunEvents hf c g t a n) = [] := by
  intro n
  induction n with
  | zero => intro a t; simp [retryRunEvents, successCalls]
  | succ n ih =>
      intro a t
      rw [retryRunEvents]
      simp [successCalls_grantedBlock, ih]

/-- Running the loop over `n` consecutive signalled failures that are all
granted a retry prepends the corresponding granted-retry events and continues
from attempt `a + n` with the iterated delay. -/
theorem doRetryLoop_retry_run {α ε : Type} (op : Nat → OpResult α ε) (c : Nat → Option ε)
    (g : BackoffFunction) (M : Nat) (hf hs : Bool) :
    ∀ (n a : Nat) (t : ℚ),
      (∀ k, a ≤ k → k < a + n → op k = .thrown (.retryErr (mkRetryError (c k)))) →
      a + n < M →
      doRetryLoop op g M hf hs a t =
        ⟨(doRetryLoop op g M hf hs (a + n) (delayIterFrom g t a n)).outcome,
         retryRunEvents hf c g t a n
           ++ (doRetryLoop op g M hf hs (a + n) (delayIterFrom g t a n)).events⟩ := by
  intro n
  induction n with
  | zero =>
      intro a t hret hlt
      simp [retryRunEvents, delayIterFrom]
  | succ n ih =>
      intro a t hret hlt
      have hopa : op a = .thrown (.retryErr (mkRetryError (c a))) := hret a le_rfl (by omega)
      have ha1 : a + 1 < M := by omega
      rw [doRetryLoop_retry_granted hopa ha1]
      have hrec := ih (a + 1) (g t (a + 1))
        (fun k hk1 hk2 => hret k (by omega) (by omega)) (by omega)
      rw [hrec]
      have hd : delayIterFrom g t a (n + 1) = delayIterFrom g (g t (a + 1)) (a + 1) n := rfl
      have hn : a + (n + 1) = a + 1 + n := by omega
      rw [retryRunEvents, hd, hn]
      cases hf <;> simp [grantedBlock, List.append_assoc]

end DoWithRetryModel

namespace DoWithRetryModel

/-- Claim C1: for every positive `maxAttempts = M` and an operation that signals
failure (with or without a cause) on every attempt, `doWithRetry` invokes the
operation exactly `M` times (attempt numbers `0 … M-1`) and then raises an
`AttemptCountExceededError` — a distinct error type whose message is
"Maximum attempt count exceeded" — whose `cause` equals the cause passed to the
final `retry` call (`none` when that call carried no cause). -/
theorem doWithRetry_exhausts_after_max_attempts {α ε : Type} (c : Nat → Option ε)
    (options dflt : Options) (M : Nat) (hM : 0 < M) (hmax : options.maxAttempts = some M) :
    invokes (doWithRetry (α := α)
        (fun n => .thrown (.retryErr (mkRetryError (c n)))) options dflt).events
      = List.range M ∧
    (doWithRetry (α := α)
        (fun n => .thrown (.retryErr (mkRetryError (c n)))) options dflt).outcome
      = .exceeded (mkAttemptCountExceededError (c (M - 1))) ∧
    (mkAttemptCountExceededError (c (M - 1)) : AttemptCountExceededError ε).message
      = "Maximum attempt count exceeded" := by
  have hMres : resolveMaxAttempts options dflt = M := by simp [resolveMaxAttempts, hmax]
  have hrun := doRetryLoop_retry_run (α := α)
    (fun n => OpResult.thrown (.retryErr (mkRetryError (c n)))) c
    (resolveGetNextTimeout options dflt) M options.onFail.isSome options.onSuccess.isSome
    (M - 1) 0 (resolveInitTimeout options dflt) (fun k _ _ => rfl) (by omega)
  rw [Nat.zero_add] at hrun
  rw [doRetryLoop_retry_exhausted (a := M - 1) rfl (by omega)] at hrun
  unfold doWithRetry
  rw [hMres, hrun]
  refine ⟨?_, rfl, rfl⟩
  have hconc : List.range' 0 (M - 1) ++ [M - 1] = List.range M := by
    have h2 := range'_succ_right 0 (M - 1)
    rw [Nat.zero_add] at h2
    calc List.range' 0 (M - 1) ++ [M - 1] = List.range' 0 (M - 1 + 1) := h2.symm
      _ = List.range' 0 M := by rw [show M - 1 + 1 = M from by omega]
      _ = List.range M := (List.range_eq_range' M).symm
  dsimp only
  rw [invokes_append, invokes_retryRunEvents]
  cases hb : options.onFail.isSome <;> simp [invokes, hb, hconc]

end DoWithRetryModel

namespace DoWithRetryModel

/-- Claim C3: for an operation that signals failure on attempts `0 … N-2` and
completes with value `v` on its `N`-th invocation (`1 ≤ N ≤ maxAttempts`),
`doWithRetry` passes attempt values `0 … N-1` to the operation (so `N-1` on the
successful invocation), returns `v`, performs no further invocations, and calls
the `onSuccess` observer with `(v, N-1)` exactly when it is present. -/
theorem doWithRetry_success_on_nth {α ε : Type} (op : Nat → OpResult α ε) (c : Nat → Option ε)
    (v : α) (N M : Nat) (options dflt : Options)
    (hmax : options.maxAttempts = some M) (hN : 0 < N) (hNM : N ≤ M)
    (hret : ∀ k, k < N - 1 → op k = .thrown (.retryErr (mkRetryError (c k))))
    (hval : op (N - 1) = .value v) :
    (doWithRetry op options dflt).outcome = .success v ∧
    invokes (doWithRetry op options dflt).events = List.range N ∧
    successCalls (doWithRetry op options dflt).events
      = if options.onSuccess.isSome then [(v, N - 1)] else [] := by
  have hMres : resolveMaxAttempts options dflt = M := by simp [resolveMaxAttempts, hmax]
  have hrun := doRetryLoop_retry_run op c
    (resolveGetNextTimeout options dflt) M options.onFail.isSome options.onSuccess.isSome
    (N - 1) 0 (resolveInitTimeout options dflt)
    (fun k _ hk2 => hret k (by omega)) (by omega)
  rw [Nat.zero_add] at hrun
  rw [doRetryLoop_value (a := N - 1) hval] at hrun
  unfold doWithRetry
  rw [hMres, hrun]
  have hconc : List.range' 0 (N - 1) ++ [N - 1] = List.range N := by
    have h2 := range'_succ_right 0 (N - 1)
    rw [Nat.zero_add] at h2
    calc List.range' 0 (N - 1) ++ [N - 1] = List.range' 0 (N - 1 + 1) := h2.symm
      _ = List.range' 0 N := by rw [show N - 1 + 1 = N from by omega]
      _ = List.range N := (List.range_eq_range' N).symm
  refine ⟨rfl, ?_, ?_⟩
  · dsimp only
    rw [invokes_append, invokes_retryRunEvents]
    cases hb : options.onSuccess.isSome <;> simp [invokes, hb, hconc]
  · dsimp only
    rw [successCalls_append, successCalls_retryRunEvents]
    cases hb : options.onSuccess.isSome <;> simp [successCalls, hb]

/-- Claim C2: when the operation, after signalled failures on attempts
`0 … a-1`, raises an error not produced by the `retry` function on attempt `a`,
`doWithRetry` re-raises that exact error, performs no further invocation
(exactly `a + 1` in total) and no further wait (exactly `a` waits in total),
and its very last observable event is the `onFail` observer call with that
error and attempt `a` when the observer is present, or the invocation itself
when it is absent. -/
theorem doWithRetry_unrelated_error_rethrown {α ε : Type} (op : Nat → OpResult α ε)
    (c : Nat → Option ε) (e : ε) (a M : Nat) (options dflt : Options)
    (hmax : options.maxAttempts = some M)
    (hret : ∀ k, k < a → op k = .thrown (.retryErr (mkRetryError (c k))))
    (herr : op a = .thrown (.other e)) (ha : a < M) :
    (doWithRetry op options dflt).outcome = .raised e ∧
    invokes (doWithRetry op options dflt).events = List.range (a + 1) ∧
    (waits (doWithRetry op options dflt).events).length = a ∧
    (options.onFail.isSome = true →
      (doWithRetry op options dflt).events.getLast? = some (.failCall (some e) a)) ∧
    (options.onFail = none →
      (doWithRetry op options dflt).events.getLast? = some (.invoke a)) := by
  have hMres : resolveMaxAttempts options dflt = M := by simp [resolveMaxAttempts, hmax]
  have hrun := doRetryLoop_retry_run op c
    (resolveGetNextTimeout options dflt) M options.onFail.isSome options.onSuccess.isSome
    a 0 (resolveInitTimeout options dflt)
    (fun k _ hk2 => hret k (by omega)) (by omega)
  rw [Nat.zero_add] at hrun
  rw [doRetryLoop_other (a := a) herr] at hrun
  unfold doWithRetry
  rw [hMres, hrun]
  have hconc : List.range' 0 a ++ [a] = List.range (a + 1) := by
    have h2 := range'_succ_right 0 a
    rw [Nat.zero_add] at h2
    rw [← h2, List.range_eq_range']
  refine ⟨rfl, ?_, ?_, ?_, ?_⟩
  · dsimp only
    rw [invokes_append, invokes_retryRunEvents]
    cases hb : options.onFail.isSome <;> simp [invokes, hb, hconc]
  · dsimp only
    have hw : waits (α := α) (ε := ε)
        ([Event.invoke a] ++ if options.onFail.isSome = true
          then [Event.failCall (some e) a] else []) = [] := by
      cases hb : options.onFail.isSome <;> simp [waits, hb]
    rw [waits_append, hw, List.append_nil, waits_retryRunEvents_length]
  · intro hb
    dsimp only
    rw [hb]
    simp
  · intro hb
    dsimp only
    rw [hb]
    simp

end DoWithRetryModel

namespace DoWithRetryModel

theorem backoffCalls_invoke_cons {α ε : Type} (n : Nat) (l : List (Event α ε)) :
    backoffCalls (.invoke n :: l) = backoffCalls l := by simp [backoffCalls]

theorem waits_invoke_cons {α ε : Type} (n : Nat) (l : List (Event α ε)) :
    waits (.invoke n :: l) = waits l := by simp [waits]

theorem join_range_succ_shift {β : Type} (f : Nat → List β) (n : Nat) :
    ((List.range (n + 1)).map f).flatten
      = f 0 ++ ((List.range n).map fun i => f (i + 1)).flatten := by
  rw [List.range_succ_eq_map]
  simp only [List.map_cons, List.flatten_cons, List.map_map]
  congr 1

/-- Shape of an arbitrary run of the loop: some `k ≥ 1` invocations, the
first `k - 1` of them granted-retry blocks over the iterated delays, and a
final segment that starts with the last invocation and contains no backoff
call and no wait. -/
theorem doRetryLoop_trace_shape {α ε : Type} (op : Nat → OpResult α ε) (g : BackoffFunction)
    (M : Nat) (hf hs : Bool) :
    ∀ (fuel a : Nat) (t : ℚ), M - a ≤ fuel →
      ∃ k, 0 < k ∧ ∃ (c : Nat → Option ε) (fin : List (Event α ε)),
        (doRetryLoop op g M hf hs a t).events =
          ((List.range (k - 1)).map fun i =>
            grantedBlock hf (c i) (a + i) (delayIterFrom g t a i)
              (delayIterFrom g t a (i + 1))).flatten ++ fin ∧
        fin.head? = some (.invoke (a + k - 1)) ∧
        backoffCalls fin = [] ∧ waits fin = [] := by
  have mk1 : ∀ (a : Nat) (t : ℚ) (rest : List (Event α ε)),
      (doRetryLoop op g M hf hs a t).events = .invoke a :: rest →
      backoffCalls rest = [] → waits rest = [] →
      ∃ k, 0 < k ∧ ∃ (c : Nat → Option ε) (fin : List (Event α ε)),
        (doRetryLoop op g M hf hs a t).events =
          ((List.range (k - 1)).map fun i =>
            grantedBlock hf (c i) (a + i) (delayIterFrom g t a i)
              (delayIterFrom g t a (i + 1))).flatten ++ fin ∧
        fin.head? = some (.invoke (a + k - 1)) ∧
        backoffCalls fin = [] ∧ waits fin = [] := by
    intro a t rest hev hbc hw
    refine ⟨1, Nat.one_pos, fun _ => none, .invoke a :: rest, ?_, ?_, ?_, ?_⟩
    · simpa using hev
    · simp
    · rw [backoffCalls_invoke_cons]; exact hbc
    · rw [waits_invoke_cons]; exact hw
  intro fuel
  induction fuel with
  | zero =>
      intro a t hfuel
      match hop : op a with
      | .value v =>
          refine mk1 a t (if hs then [.successCall v a] else [])
              (by rw [doRetryLoop_value hop]; rfl) ?_ ?_ <;>
            cases hs <;> simp [backoffCalls, waits]
      | .thrown (.retryErr e) =>
          have hcond : ¬ a + 1 < M := by omega
          refine mk1 a t (if hf then [.failCall e.cause a] else [])
              (by rw [doRetryLoop_retry_exhausted hop hcond]; rfl) ?_ ?_ <;>
            cases hf <;> simp [backoffCalls, waits]
      | .thrown (.other e) =>
          refine mk1 a t (if hf then [.failCall (some e) a] else [])
              (by rw [doRetryLoop_other hop]; rfl) ?_ ?_ <;>
            cases hf <;> simp [backoffCalls, waits]
  | succ fuel ih =>
      intro a t hfuel
      match hop : op a with
      | .value v =>
          refine mk1 a t (if hs then [.successCall v a] else [])
              (by rw [doRetryLoop_value hop]; rfl) ?_ ?_ <;>
            cases hs <;> simp [backoffCalls, waits]
      | .thrown (.retryErr e) =>
          by_cases hcond : a + 1 < M
          · obtain ⟨k', hk', c', fin', hev', hhead', hbc', hw'⟩ :=
              ih (a + 1) (g t (a + 1)) (by omega)
            refine ⟨k' + 1, by omega,
              (fun i => match i with | 0 => e.cause | j + 1 => c' j), fin', ?_, ?_, ?_, ?_⟩
            · rw [doRetryLoop_retry_granted hop hcond]
              dsimp only
              rw [hev', Nat.add_sub_cancel]
              obtain ⟨n, rfl⟩ : ∃ n, k' = n + 1 := ⟨k' - 1, by omega⟩
              rw [join_range_succ_shift]
              have hshift : ((List.range n).map fun i =>
                  grantedBlock (α := α) (ε := ε) hf
                    ((fun j => match j with | 0 => e.cause | j + 1 => c' j) (i + 1))
                    (a + (i + 1)) (delayIterFrom g t a (i + 1))
                    (delayIterFrom g t a (i + 1 + 1)))
                  = (List.range n).map fun i =>
                    grantedBlock hf (c' i) (a + 1 + i)
                      (delayIterFrom g (g t (a + 1)) (a + 1) i)
                      (delayIterFrom g (g t (a + 1)) (a + 1) (i + 1)) := by
                refine List.map_congr_left fun i _ => ?_
                rw [show a + (i + 1) = a + 1 + i from by omega]
                rfl
              rw [hshift]
              simp [grantedBlock, delayIterFrom, List.append_assoc]
            · rw [show a + (k' + 1) - 1 = a + 1 + k' - 1 from by omega]
              exact hhead'
            · exact hbc'
            · exact hw'
          · refine mk1 a t (if hf then [.failCall e.cause a] else [])
                (by rw [doRetryLoop_retry_exhausted hop hcond]; rfl) ?_ ?_ <;>
              cases hf <;> simp [backoffCalls, waits]
      | .thrown (.other e) =>
          refine mk1 a t (if hf then [.failCall (some e) a] else [])
              (by rw [doRetryLoop_other hop]; rfl) ?_ ?_ <;>
            cases hf <;> simp [backoffCalls, waits]

end DoWithRetryModel

namespace DoWithRetryModel

/-- Claim C4: in every run the first invocation is the very first event (no
wait precedes it, whatever the configured initial delay); the trace is a
sequence of granted-retry blocks followed by a final segment, where block `i`
invokes the operation with attempt `i`, calls the backoff function exactly once
with the current delay and the incremented attempt number `i + 1`, and waits
exactly the returned delay — which becomes the current delay of block `i + 1` —
and the final segment (in particular an exhausted final attempt) contains no
backoff call and no wait. -/
theorem doWithRetry_backoff_discipline {α ε : Type} (op : Nat → OpResult α ε)
    (options dflt : Options) :
    (doWithRetry op options dflt).events.head? = some (.invoke 0) ∧
    ∃ k, 0 < k ∧ ∃ (c : Nat → Option ε) (fin : List (Event α ε)),
      (doWithRetry op options dflt).events =
        ((List.range (k - 1)).map fun i =>
          grantedBlock options.onFail.isSome (c i) i
            (delayIterFrom (resolveGetNextTimeout options dflt)
              (resolveInitTimeout options dflt) 0 i)
            (delayIterFrom (resolveGetNextTimeout options dflt)
              (resolveInitTimeout options dflt) 0 (i + 1))).flatten ++ fin ∧
      fin.head? = some (.invoke (k - 1)) ∧ backoffCalls fin = [] ∧ waits fin = [] := by
  constructor
  · unfold doWithRetry
    match hop : op 0 with
    | .value v => rw [doRetryLoop_value hop]; simp
    | .thrown (.retryErr e) =>
        by_cases hcond : 0 + 1 < resolveMaxAttempts options dflt
        · rw [doRetryLoop_retry_granted hop hcond]; simp
        · rw [doRetryLoop_retry_exhausted hop hcond]; simp
    | .thrown (.other e) => rw [doRetryLoop_other hop]; simp
  · obtain ⟨k, hk, c, fin, hev, hhead, hbc, hw⟩ :=
      doRetryLoop_trace_shape op (resolveGetNextTimeout options dflt)
        (resolveMaxAttempts options dflt) options.onFail.isSome options.onSuccess.isSome
        (resolveMaxAttempts options dflt) 0 (resolveInitTimeout options dflt) (by omega)
    simp only [Nat.zero_add] at hev hhead
    exact ⟨k, hk, c, fin, hev, hhead, hbc, hw⟩

end DoWithRetryModel

namespace DoWithRetryModel

/-- Claim C5 as amended: in every call — mixed options included — each of
`maxAttempts`, `initTimeout` and `getNextTimeout` is resolved per field at call
start: a field set in the per-call options wins, a field left unset falls back
to the process-wide default (`Option.getD`), so an override of that field takes
effect for the call; the `onFail` / `onSuccess` observers are read solely from
the per-call options — the defaults' observer fields never reach the run.  The
hypotheses only say the stored defaults define the three core fields, which
`DFLT_OPTIONS` establishes and `overrideDefaultOptions` preserves (the source
asserts the same with its non-null `!`). -/
theorem doWithRetry_core_fields_resolution {α ε : Type} (op : Nat → OpResult α ε)
    (options dflt : Options) (m : Nat) (t : ℚ) (g : BackoffFunction)
    (hm : dflt.maxAttempts = some m) (ht : dflt.initTimeout = some t)
    (hg : dflt.getNextTimeout = some g) :
    doWithRetry op options dflt
      = doRetryLoop op (options.getNextTimeout.getD g) (options.maxAttempts.getD m)
          options.onFail.isSome options.onSuccess.isSome 0 (options.initTimeout.getD t) := by
  unfold doWithRetry resolveMaxAttempts resolveInitTimeout resolveGetNextTimeout
  rw [hm, ht, hg]
  rfl

/-- Counterexample to Claim C5 as stated: after `overrideDefaultOptions`
installs an `onSuccess` observer in the process-wide defaults, a `doWithRetry`
call that leaves `onSuccess` unset succeeds without any success-observer call
(its whole trace is the single invocation), so the defaulted observer does not
take effect in the call's behavior. -/
theorem doWithRetry_default_observer_ignored :
    (overrideDefaultOptions DFLT_OPTIONS ⟨none, none, none, none, some ()⟩).onSuccess
      = some () ∧
    (doWithRetry (α := Nat) (ε := Nat) (fun _ => .value 7)
        ⟨none, none, none, none, none⟩
        (overrideDefaultOptions DFLT_OPTIONS ⟨none, none, none, none, some ()⟩)).events
      = [.invoke 0] := by
  refine ⟨rfl, ?_⟩
  simp [doWithRetry, doRetryLoop, resolveMaxAttempts, resolveInitTimeout,
    resolveGetNextTimeout, overrideDefaultOptions, DFLT_OPTIONS]

/-- Claim C6 (code bug): the initial process-wide defaults carry
`maxAttempts = 10` as specified, but `initTimeout` is `100`, not the `1000`
stated by the spec, by the field's own doc comment (src/index.ts line 11) and
by the readme. -/
theorem DFLT_OPTIONS_initTimeout_100 :
    DFLT_OPTIONS.maxAttempts = some 10 ∧ DFLT_OPTIONS.initTimeout = some 100 ∧
    DFLT_OPTIONS.initTimeout ≠ some 1000 := by
  refine ⟨rfl, rfl, ?_⟩
  intro h
  rw [DFLT_OPTIONS] at h
  simp only [Option.some.injEq] at h
  norm_num at h

/-- Claim C7: for every current delay `d` and every choice of constructor
arguments, `linearBackoff` and `exponentialBackoff` return `d` unchanged at
attempt number 1; and the round-trip instance `linearBackoff 100` gives
`f 100 1 = 100`, `f 100 2 = 200`, `f 200 3 = 300`. -/
theorem backoff_first_retry_passthrough (i m x w d : ℚ) :
    linearBackoff i m d 1 = d ∧ exponentialBackoff x w d 1 = d ∧
    linearBackoff 100 maxSafeInteger 100 1 = 100 ∧
    linearBackoff 100 maxSafeInteger 100 2 = 200 ∧
    linearBackoff 100 maxSafeInteger 200 3 = 300 := by
  refine ⟨rfl, rfl, rfl, ?_, ?_⟩
  · simp only [linearBackoff]
    norm_num [maxSafeInteger, min_def]
  · simp only [linearBackoff]
    norm_num [maxSafeInteger, min_def]

/-- Claim C9: `randomBackoff minT maxT` fails at construction with a
`RangeError` whenever `maxT ≤ minT`, and `upwardDecayBackoff maxT rate` fails
at construction whenever `rate ≤ 1`; in both cases no backoff function is
produced (the result is the `error` branch, before any attempt is made), and
in particular `randomBackoff 3 1` and `upwardDecayBackoff 1000 1` both fail. -/
theorem backoff_construction_validation (u v w r : ℚ) (h1 : v ≤ u) (h2 : r ≤ 1) :
    randomBackoff u v = .error "minTimeout must be less than maxTimeout" ∧
    upwardDecayBackoff w r = .error "backoffRate must be greater than 1" ∧
    randomBackoff 3 1 = .error "minTimeout must be less than maxTimeout" ∧
    upwardDecayBackoff 1000 1 = .error "backoffRate must be greater than 1" := by
  refine ⟨?_, ?_, ?_, ?_⟩
  · simp [randomBackoff, h1]
  · simp [upwardDecayBackoff, h2]
  · simp [randomBackoff]
  · simp [upwardDecayBackoff]

/-- Witness for C9 at `randomBackoff 3 1` and `upwardDecayBackoff 1000 1`. -/
theorem backoff_construction_validation_witness :
    ((1 : ℚ) ≤ 3 ∧ (1 : ℚ) ≤ 1) ∧
    randomBackoff 3 1 = .error "minTimeout must be less than maxTimeout" ∧
    upwardDecayBackoff 1000 1 = .error "backoffRate must be greater than 1" := by
  have h := backoff_construction_validation 3 1 1000 1 (by norm_num) le_rfl
  exact ⟨⟨by norm_num, le_rfl⟩, h.2.2.1, h.2.2.2⟩

/-- Claim C10: the `retry` function never returns normally — for every call
`retry c` (including `c = none`) it throws the internal `RetryError` marker
carrying exactly `c`, so the `ok` branch is never produced and the attempt's
outcome is determined solely by the marker; the engine recovers the identical
cause from it, as the single-attempt exhaustion run shows. -/
theorem retry_throws_marker_with_cause {ε : Type} (c : Option ε) :
    retry c = .error (mkRetryError c) ∧
    (∀ u : Unit, retry c ≠ .ok u) ∧
    (mkRetryError c).cause = c ∧
    (doWithRetry (α := Unit) (fun _ => .thrown (.retryErr (mkRetryError c)))
        ⟨some 1, none, none, none, none⟩ DFLT_OPTIONS).outcome
      = .exceeded (mkAttemptCountExceededError c) := by
  refine ⟨rfl, fun u h => by simp [retry] at h, rfl, ?_⟩
  unfold doWithRetry
  rw [doRetryLoop_retry_exhausted (a := 0) rfl (by norm_num [resolveMaxAttempts])]
  rfl

end DoWithRetryModel

namespace DoWithRetryModel

theorem linearDelaySeq_bounds (i m t0 : ℚ) (hi : 0 ≤ i) (h0 : 0 ≤ t0) (hc : t0 ≤ m) :
    ∀ n, 0 ≤ linearDelaySeq i m t0 n ∧ linearDelaySeq i m t0 n ≤ m := by
  intro n
  induction n with
  | zero => exact ⟨h0, hc⟩
  | succ n ih =>
      rw [linearDelaySeq]
      unfold linearBackoff
      by_cases h : n + 1 = 1
      · rw [if_pos h]; exact ih
      · rw [if_neg h]
        have hm : (0 : ℚ) ≤ m := le_trans h0 hc
        exact ⟨le_min (by linarith [ih.1]) hm, min_le_right _ _⟩

theorem exponentialDelaySeq_bounds (x m t0 : ℚ) (hx : 1 ≤ x) (h0 : 0 ≤ t0) (hc : t0 ≤ m) :
    ∀ n, 0 ≤ exponentialDelaySeq x m t0 n ∧ exponentialDelaySeq x m t0 n ≤ m := by
  intro n
  induction n with
  | zero => exact ⟨h0, hc⟩
  | succ n ih =>
      rw [exponentialDelaySeq]
      unfold exponentialBackoff
      by_cases h : n + 1 = 1
      · rw [if_pos h]; exact ih
      · rw [if_neg h]
        have hm : (0 : ℚ) ≤ m := le_trans h0 hc
        exact ⟨le_min (mul_nonneg ih.1 (by linarith)) hm, min_le_right _ _⟩

theorem fibStateAfter_nonneg (f m : ℚ) :
    ∀ n, 0 ≤ (fibStateAfter f m n).fibPrev ∧ 0 ≤ (fibStateAfter f m n).fibCurr := by
  intro n
  induction n with
  | zero => exact ⟨le_refl 0, by norm_num [fibStateAfter, fibonacciBackoffInit]⟩
  | succ n ih =>
      have hstep : fibStateAfter f m (n + 1)
          = (fibonacciBackoffCall f m (fibStateAfter f m n)).2 :=
        Function.iterate_succ_apply' _ _ _
      rw [hstep]
      unfold fibonacciBackoffCall
      exact ⟨ih.2, by dsimp; linarith [ih.1, ih.2]⟩

theorem fibonacciDelay_eq (f m : ℚ) (n : Nat) :
    fibonacciDelay f m n
      = min (f * ((fibStateAfter f m n).fibPrev + (fibStateAfter f m n).fibCurr)) m := rfl

theorem fibStateAfter_succ_sum (f m : ℚ) (n : Nat) :
    (fibStateAfter f m (n + 1)).fibPrev + (fibStateAfter f m (n + 1)).fibCurr
      = (fibStateAfter f m n).fibCurr
        + ((fibStateAfter f m n).fibPrev + (fibStateAfter f m n).fibCurr) := by
  have hstep : fibStateAfter f m (n + 1)
      = (fibonacciBackoffCall f m (fibStateAfter f m n)).2 :=
    Function.iterate_succ_apply' _ _ _
  rw [hstep]
  unfold fibonacciBackoffCall
  dsimp

/-- Claim C8 as amended: for `linearBackoff` (increment ≥ 0),
`exponentialBackoff` (exponent ≥ 1) and `fibonacciBackoff` (factor ≥ 0) with a
configured `maxTimeout`, and every initial delay `t0` with `0 ≤ t0 ≤ maxTimeout`
(the bound by `maxTimeout` being the amendment), the sequence of delays obtained
by feeding each output back as the next current delay at attempt numbers
1, 2, 3, … is non-decreasing, and once a delay equals `maxTimeout` every
subsequent delay is exactly `maxTimeout`.  The fibonacci closure ignores its
inputs, so its returned delays are `fibonacciDelay` regardless of what is fed
back. -/
theorem backoff_capped_monotone (i x f m t0 : ℚ)
    (hi : 0 ≤ i) (hx : 1 ≤ x) (hf : 0 ≤ f) (h0 : 0 ≤ t0) (hc : t0 ≤ m) :
    (∀ n, linearDelaySeq i m t0 n ≤ linearDelaySeq i m t0 (n + 1)) ∧
    (∀ n j, n ≤ j → linearDelaySeq i m t0 n = m → linearDelaySeq i m t0 j = m) ∧
    (∀ n, exponentialDelaySeq x m t0 n ≤ exponentialDelaySeq x m t0 (n + 1)) ∧
    (∀ n j, n ≤ j → exponentialDelaySeq x m t0 n = m → exponentialDelaySeq x m t0 j = m) ∧
    (∀ n, fibonacciDelay f m n ≤ fibonacciDelay f m (n + 1)) ∧
    (∀ n j, n ≤ j → fibonacciDelay f m n = m → fibonacciDelay f m j = m) := by
  have hm : (0 : ℚ) ≤ m := le_trans h0 hc
  have linMono : ∀ n, linearDelaySeq i m t0 n ≤ linearDelaySeq i m t0 (n + 1) := by
    intro n
    conv_rhs => rw [linearDelaySeq]
    unfold linearBackoff
    by_cases h : n + 1 = 1
    · rw [if_pos h]
    · rw [if_neg h]
      exact le_min (by linarith [(linearDelaySeq_bounds i m t0 hi h0 hc n).1])
        (linearDelaySeq_bounds i m t0 hi h0 hc n).2
  have linStep : ∀ n, linearDelaySeq i m t0 n = m → linearDelaySeq i m t0 (n + 1) = m := by
    intro n hn
    rw [linearDelaySeq]
    unfold linearBackoff
    by_cases h : n + 1 = 1
    · rw [if_pos h]; exact hn
    · rw [if_neg h, hn]; exact min_eq_right (by linarith)
  have expMono : ∀ n, exponentialDelaySeq x m t0 n ≤ exponentialDelaySeq x m t0 (n + 1) := by
    intro n
    conv_rhs => rw [exponentialDelaySeq]
    unfold exponentialBackoff
    by_cases h : n + 1 = 1
    · rw [if_pos h]
    · rw [if_neg h]
      refine le_min ?_ (exponentialDelaySeq_bounds x m t0 hx h0 hc n).2
      exact le_mul_of_one_le_right (exponentialDelaySeq_bounds x m t0 hx h0 hc n).1 hx
  have expStep : ∀ n, exponentialDelaySeq x m t0 n = m →
      exponentialDelaySeq x m t0 (n + 1) = m := by
    intro n hn
    rw [exponentialDelaySeq]
    unfold exponentialBackoff
    by_cases h : n + 1 = 1
    · rw [if_pos h]; exact hn
    · rw [if_neg h, hn]
      exact min_eq_right (le_mul_of_one_le_right hm hx)
  have fibSum : ∀ n, f * ((fibStateAfter f m n).fibPrev + (fibStateAfter f m n).fibCurr)
      ≤ f * ((fibStateAfter f m (n + 1)).fibPrev + (fibStateAfter f m (n + 1)).fibCurr) := by
    intro n
    rw [fibStateAfter_succ_sum]
    have := (fibStateAfter_nonneg f m n).2
    exact mul_le_mul_of_nonneg_left (by linarith) hf
  have fibMono : ∀ n, fibonacciDelay f m n ≤ fibonacciDelay f m (n + 1) := by
    intro n
    rw [fibonacciDelay_eq, fibonacciDelay_eq]
    exact min_le_min (fibSum n) (le_refl m)
  have fibStep : ∀ n, fibonacciDelay f m n = m → fibonacciDelay f m (n + 1) = m := by
    intro n hn
    rw [fibonacciDelay_eq] at hn ⊢
    have hge : m ≤ f * ((fibStateAfter f m n).fibPrev + (fibStateAfter f m n).fibCurr) :=
      min_eq_right_iff.mp hn
    exact min_eq_right (le_trans hge (fibSum n))
  refine ⟨linMono, ?_, expMono, ?_, fibMono, ?_⟩
  · intro n j hnj hn
    induction j, hnj using Nat.le_induction with
    | base => exact hn
    | succ j hj ihj => exact linStep j ihj
  · intro n j hnj hn
    induction j, hnj using Nat.le_induction with
    | base => exact hn
    | succ j hj ihj => exact expStep j ihj
  · intro n j hnj hn
    induction j, hnj using Nat.le_induction with
    | base => exact hn
    | succ j hj ihj => exact fibStep j ihj

/-- Counterexample to Claim C8 as stated: with `linearBackoff 10 100`
(increment 10 ≥ 0, cap 100) and the non-negative initial delay 200 the claim
fails — the first returned delay is 200 (attempt-1 pass-through) and the second
is 100 (the cap), so the sequence of returned delays decreases. -/
theorem backoff_capped_monotone_counterexample :
    ((0 : ℚ) ≤ 10 ∧ (0 : ℚ) ≤ 200) ∧
    linearDelaySeq 10 100 200 1 = 200 ∧ linearDelaySeq 10 100 200 2 = 100 ∧
    ¬ linearDelaySeq 10 100 200 1 ≤ linearDelaySeq 10 100 200 2 := by
  refine ⟨⟨by norm_num, by norm_num⟩, ?_, ?_, ?_⟩ <;>
    norm_num [linearDelaySeq, linearBackoff, min_def]

end DoWithRetryModel

namespace DoWithRetryModel

/-- Witness for C1: `maxAttempts = 2`, cause `none` on attempt 0 and `"x"` on
attempt 1 — two invocations, then exhaustion wrapping `some "x"`. -/
theorem doWithRetry_exhausts_after_max_attempts_witness :
    (0 < 2 ∧ (⟨some 2, none, none, none, none⟩ : Options).maxAttempts = some 2) ∧
    invokes (doWithRetry (α := Unit)
        (fun n => .thrown (.retryErr (mkRetryError (if n = 0 then none else some "x"))))
        ⟨some 2, none, none, none, none⟩ DFLT_OPTIONS).events = List.range 2 ∧
    (doWithRetry (α := Unit)
        (fun n => .thrown (.retryErr (mkRetryError (if n = 0 then none else some "x"))))
        ⟨some 2, none, none, none, none⟩ DFLT_OPTIONS).outcome
      = .exceeded (mkAttemptCountExceededError (some "x")) ∧
    (mkAttemptCountExceededError (some "x") : AttemptCountExceededError String).message
      = "Maximum attempt count exceeded" :=
  ⟨⟨by norm_num, rfl⟩,
   doWithRetry_exhausts_after_max_attempts (fun n => if n = 0 then none else some "x")
     ⟨some 2, none, none, none, none⟩ DFLT_OPTIONS 2 (by norm_num) rfl⟩

/-- Witness for C2: an operation that throws `"boom"` directly on attempt 0 —
exactly one invocation total, no waits, outcome re-raises `"boom"`. -/
theorem doWithRetry_unrelated_error_rethrown_witness :
    ((⟨some 3, none, none, none, none⟩ : Options).maxAttempts = some 3 ∧ 0 < 3) ∧
    (doWithRetry (α := Unit) (fun _ => .thrown (.other "boom"))
        ⟨some 3, none, none, none, none⟩ DFLT_OPTIONS).outcome = .raised "boom" ∧
    invokes (doWithRetry (α := Unit) (fun _ => .thrown (.other "boom"))
        ⟨some 3, none, none, none, none⟩ DFLT_OPTIONS).events = List.range 1 ∧
    (waits (doWithRetry (α := Unit) (fun _ => .thrown (.other "boom"))
        ⟨some 3, none, none, none, none⟩ DFLT_OPTIONS).events).length = 0 ∧
    ((⟨some 3, none, none, none, none⟩ : Options).onFail.isSome = true →
      (doWithRetry (α := Unit) (fun _ => .thrown (.other "boom"))
        ⟨some 3, none, none, none, none⟩ DFLT_OPTIONS).events.getLast?
        = some (.failCall (some "boom") 0)) ∧
    ((⟨some 3, none, none, none, none⟩ : Options).onFail = none →
      (doWithRetry (α := Unit) (fun _ => .thrown (.other "boom"))
        ⟨some 3, none, none, none, none⟩ DFLT_OPTIONS).events.getLast?
        = some (.invoke 0)) :=
  ⟨⟨rfl, by norm_num⟩,
   doWithRetry_unrelated_error_rethrown (fun _ => .thrown (.other "boom")) (fun _ => none)
     "boom" 0 3 ⟨some 3, none, none, none, none⟩ DFLT_OPTIONS rfl
     (fun k hk => absurd hk (Nat.not_lt_zero k)) rfl (by norm_num)⟩

/-- Witness for C3, the instance named by the claim: failures on attempts
0, 1, 2, success on attempt 3, `maxAttempts = 10` — invoked exactly 4 times
with attempt values 0, 1, 2, 3; the result is returned and the success
observer receives `("completed", 3)`. -/
theorem doWithRetry_success_on_nth_witness :
    ((⟨some 10, none, none, none, some ()⟩ : Options).maxAttempts = some 10 ∧
      0 < 4 ∧ 4 ≤ 10) ∧
    (doWithRetry
        (fun n => if n < 3 then .thrown (.retryErr (mkRetryError (some "e")))
          else .value "completed")
        ⟨some 10, none, none, none, some ()⟩ DFLT_OPTIONS).outcome = .success "completed" ∧
    invokes (doWithRetry
        (fun n => if n < 3 then .thrown (.retryErr (mkRetryError (some "e")))
          else .value "completed")
        ⟨some 10, none, none, none, some ()⟩ DFLT_OPTIONS).events = List.range 4 ∧
    successCalls (doWithRetry
        (fun n => if n < 3 then .thrown (.retryErr (mkRetryError (some "e")))
          else .value "completed")
        ⟨some 10, none, none, none, some ()⟩ DFLT_OPTIONS).events = [("completed", 3)] :=
  ⟨⟨rfl, by norm_num, by norm_num⟩,
   doWithRetry_success_on_nth
     (fun n => if n < 3 then .thrown (.retryErr (mkRetryError (some "e")))
       else .value "completed")
     (fun _ => some "e") "completed" 4 10 ⟨some 10, none, none, none, some ()⟩ DFLT_OPTIONS
     rfl (by norm_num) (by norm_num)
     (fun k hk => by simp only [if_pos hk]) rfl⟩

/-- Witness for the amended C5 at a mixed call, mirroring the test suite: after
an override installs `initTimeout = 1` and `linearBackoff 1`, a call setting
only `maxAttempts = 5` (and an `onSuccess` observer) runs with its own
`maxAttempts`, the overridden `initTimeout` and backoff, and the observers
taken from the per-call options. -/
theorem doWithRetry_core_fields_resolution_witness :
    ((overrideDefaultOptions DFLT_OPTIONS
        ⟨none, some 1, some (linearBackoff 1 maxSafeInteger), none, none⟩).maxAttempts
        = some 10 ∧
      (overrideDefaultOptions DFLT_OPTIONS
        ⟨none, some 1, some (linearBackoff 1 maxSafeInteger), none, none⟩).initTimeout
        = some 1 ∧
      (overrideDefaultOptions DFLT_OPTIONS
        ⟨none, some 1, some (linearBackoff 1 maxSafeInteger), none, none⟩).getNextTimeout
        = some (linearBackoff 1 maxSafeInteger)) ∧
    doWithRetry (α := Unit) (ε := Unit) (fun _ => .value ())
        ⟨some 5, none, none, none, some ()⟩
        (overrideDefaultOptions DFLT_OPTIONS
          ⟨none, some 1, some (linearBackoff 1 maxSafeInteger), none, none⟩)
      = doRetryLoop (fun _ => .value ()) (linearBackoff 1 maxSafeInteger) 5
          false true 0 1 :=
  ⟨⟨rfl, rfl, rfl⟩,
   doWithRetry_core_fields_resolution (fun _ => .value ())
     ⟨some 5, none, none, none, some ()⟩
     (overrideDefaultOptions DFLT_OPTIONS
       ⟨none, some 1, some (linearBackoff 1 maxSafeInteger), none, none⟩)
     10 1 (linearBackoff 1 maxSafeInteger) rfl rfl rfl⟩

/-- Witness for the amended C8 at increment 10, exponent 2, factor 30,
cap 100, initial delay 50. -/
theorem backoff_capped_monotone_witness :
    ((0 : ℚ) ≤ 10 ∧ (1 : ℚ) ≤ 2 ∧ (0 : ℚ) ≤ 30 ∧ (0 : ℚ) ≤ 50 ∧ (50 : ℚ) ≤ 100) ∧
    linearDelaySeq 10 100 50 1 ≤ linearDelaySeq 10 100 50 2 ∧
    exponentialDelaySeq 2 100 50 1 ≤ exponentialDelaySeq 2 100 50 2 ∧
    fibonacciDelay 30 100 0 ≤ fibonacciDelay 30 100 1 :=
  have h := backoff_capped_monotone 10 2 30 100 50 (by norm_num) (by norm_num)
    (by norm_num) (by norm_num) (by norm_num)
  ⟨⟨by norm_num, by norm_num, by norm_num, by norm_num, by norm_num⟩,
   h.1 1, h.2.2.1 1, h.2.2.2.2.1 0⟩

end DoWithRetryModel
